import Mathlib

/-!
Verification of the build-cache tool (cockroachdb/build-cache).

The development shallowly embeds the Go source (`main.go` and `pkg.go`):

* `Pkg` mirrors the `Package` struct (pkg.go): source-file lists by
  category, cgo flag lists, the transitive dependency key list `deps`
  (built by iterating the `deps` map and sorting by import path), the
  `Standard`/`race`/`local` flags, and the fields read by `isStale`.
* The file system is a partial map from path to byte content
  (`FS`); modification times are a partial map from path to `Nat`
  (`MTime`).  `filepath.Join dir file` is modeled as
  `dir ++ "/" ++ file`.
* SHA-1 followed by hex encoding is modeled by `digest`: an injective
  function of the concatenated byte stream written to the hash.  The
  real code distinguishes digests only by the written stream, and a
  40-hex-character digest is never the empty string, which `digest`
  reflects with the leading `"#"`.  Equality or inequality of
  fingerprints therefore coincides with equality or inequality of the
  written streams.
* `Package.Fingerprint` (pkg.go lines 983-1055) is a recursion over the
  object graph memoized through the per-package `fingerprint` pointer
  field.  `fingerprintRun` embeds it with an explicit environment
  (import path to `Pkg`, standing for the `*Package` pointers), an
  explicit memo table keyed by import path, and a fuel argument; `none`
  models `log.Fatal` (process abort) and also fuel exhaustion, while
  `some ("", _)` is the indeterminate sentinel the code stores in
  `p.fingerprint`.
-/

namespace BuildCache

/-- File contents: absolute path to byte content (`none` = open fails). -/
abbrev FS : Type := String → Option String

/-- Modification times: absolute path to mtime (`none` = stat fails). -/
abbrev MTime : Type := String → Option Nat

/-- The toolchain identity written into every fingerprint:
`runtime.Version()`, `runtime.GOOS`, `runtime.GOARCH`. -/
structure Toolchain where
  version : String
  goos : String
  goarch : String
deriving DecidableEq

/-- The `Package` struct of pkg.go, restricted to the fields the
fingerprint engine, the staleness evaluator and the store driver read.
`Error` is `true` when `p.Error != nil`; `Stale` is the field value at
the time `isStale` reads it; `deps` and `imports` hold the import-path
keys of `p.deps` and `p.imports` (the embedding resolves the pointers
through an environment). `Compiler` is `buildContext.Compiler`. -/
structure Pkg where
  Dir : String
  ImportPath : String
  baseImportPath : String
  Target : String
  Root : String
  Standard : Bool
  Stale : Bool
  Error : Bool
  race : Bool
  Compiler : String
  GoFiles : List String
  CgoFiles : List String
  CFiles : List String
  CXXFiles : List String
  MFiles : List String
  HFiles : List String
  SFiles : List String
  SwigFiles : List String
  SwigCXXFiles : List String
  SysoFiles : List String
  TestGoFiles : List String
  XTestGoFiles : List String
  CgoCFLAGS : List String
  CgoCPPFLAGS : List String
  CgoCXXFLAGS : List String
  CgoLDFLAGS : List String
  CgoPkgConfig : List String
  imports : List String
  deps : List String
deriving DecidableEq

/-- Association-list lookup, modeling both Go map lookup and following
a `*Package` pointer by its canonical key. -/
def lookupKey {β : Type} (k : String) : List (String × β) → Option β
  | [] => none
  | (k', v) :: rest => if k = k' then some v else lookupKey k rest

/-- The package environment: canonical import path to package, the
image of the one-instance-per-key pointer graph. -/
abbrev Env : Type := List (String × Pkg)

/-- The memo table standing for the per-package `fingerprint` field. -/
abbrev Memo : Type := List (String × String)

/-- `hex.EncodeToString(sha1(...).Sum(nil))` modeled as an injective
function of the byte stream written to the hash; never `""`. -/
def digest (chunks : List String) : String :=
  "#" ++ String.join chunks

/-- pkg.go 971-973: the package needs to run SWIG. -/
def usesSwig (p : Pkg) : Bool :=
  !p.SwigFiles.isEmpty || !p.SwigCXXFiles.isEmpty

/-- pkg.go 1007-1016: the flag chunks written to the hash after the
dependency fingerprints — toolchain identity, the canonical import
path, then the five cgo flag lists in source order. -/
def flagList (tc : Toolchain) (p : Pkg) : List String :=
  [tc.version, tc.goos, tc.goarch, p.ImportPath]
    ++ p.CgoCFLAGS ++ p.CgoCPPFLAGS ++ p.CgoCXXFLAGS
    ++ p.CgoLDFLAGS ++ p.CgoPkgConfig

/-- pkg.go 1024-1034: the owned source files in the fixed category
order the fingerprint iterates them. -/
def srcFileList (p : Pkg) : List String :=
  p.GoFiles ++ p.CgoFiles ++ p.CFiles ++ p.CXXFiles ++ p.MFiles
    ++ p.HFiles ++ p.SFiles ++ p.SwigFiles ++ p.SwigCXXFiles
    ++ p.SysoFiles

/-- pkg.go 1035-1050: for each file, the code writes the file NAME and
then the file's byte content to the hash; a failed open is
`log.Fatal` (`none`). -/
def fileChunks (fs : FS) (dir : String) : List String → Option (List String)
  | [] => some []
  | f :: rest =>
    match fs (dir ++ "/" ++ f) with
    | none => none
    | some content =>
      match fileChunks fs dir rest with
      | none => none
      | some r => some (f :: content :: r)

/-- pkg.go 990-1003: the dependency loop of `Fingerprint`.  `fp` is the
recursive fingerprint call (one fuel step down).  Skips standard
library dependencies unless the package is a race build; aborts
(`none`) when a dependency key is unresolvable; returns
`some (memo, none)` when a dependency fingerprint is the indeterminate
sentinel `""`; otherwise returns the dependency fingerprint chunks in
`deps`-list order. -/
def fingerprintDeps (fp : Pkg → Memo → Option (String × Memo)) (env : Env)
    (race : Bool) : List String → Memo → Option (Memo × Option (List String))
  | [], memo => some (memo, some [])
  | d :: ds, memo =>
    match lookupKey d env with
    | none => none
    | some dp =>
      if !race && dp.Standard then fingerprintDeps fp env race ds memo
      else
        match fp dp memo with
        | none => none
        | some (fpv, memo') =>
          if fpv = "" then some (memo', none)
          else
            match fingerprintDeps fp env race ds memo' with
            | none => none
            | some (memo'', none) => some (memo'', none)
            | some (memo'', some chunks) => some (memo'', some (fpv :: chunks))

/-- `Package.Fingerprint` (pkg.go 983-1055) with explicit memo table and
fuel.  The memoized value is returned before any fuel is consumed
(`p.fingerprint != nil` check); otherwise the digest is assembled from,
in order, the included dependency fingerprints, the flag chunks, and
the filename/content chunks, and is memoized — including the
indeterminate sentinel `""` when a dependency is indeterminate. -/
def fingerprintRun (env : Env) (fs : FS) (tc : Toolchain) :
    Nat → Pkg → Memo → Option (String × Memo)
  | 0, p, memo => (lookupKey p.ImportPath memo).map (fun fpv => (fpv, memo))
  | Nat.succ n, p, memo =>
    match lookupKey p.ImportPath memo with
    | some fpv => some (fpv, memo)
    | none =>
      match fingerprintDeps (fun q m => fingerprintRun env fs tc n q m)
          env p.race p.deps memo with
      | none => none
      | some (memo1, none) => some ("", (p.ImportPath, "") :: memo1)
      | some (memo1, some depChunks) =>
        match fileChunks fs p.Dir (srcFileList p) with
        | none => none
        | some fchunks =>
          let s := digest (depChunks ++ flagList tc p ++ fchunks)
          some (s, (p.ImportPath, s) :: memo1)

/-- pkg.go 947-951: `p.deps` is filled by iterating the `deps` map (an
arbitrary order) and then sorted by `ImportPath` via
`sort.Sort(packageList(p.deps))`. -/
def sortDeps (l : List String) : List String :=
  List.insertionSort (fun a b => a ≤ b) l

/-- Modelled from the spec: the byte content of every owned source
file — content only, with no filename chunk in front of it. -/
def specFileContents (fs : FS) (dir : String) : List String → Option (List String)
  | [] => some []
  | f :: rest =>
    match fs (dir ++ "/" ++ f) with
    | none => none
    | some content =>
      match specFileContents fs dir rest with
      | none => none
      | some r => some (content :: r)

/-- Modelled from the spec: the owned source files in fixed category
order, and in lexical filename order within each category. -/
def specSrcFileList (p : Pkg) : List String :=
  sortDeps p.GoFiles ++ sortDeps p.CgoFiles ++ sortDeps p.CFiles
    ++ sortDeps p.CXXFiles ++ sortDeps p.MFiles ++ sortDeps p.HFiles
    ++ sortDeps p.SFiles ++ sortDeps p.SwigFiles
    ++ sortDeps p.SwigCXXFiles ++ sortDeps p.SysoFiles

/-- Modelled from the spec: the fingerprints of every direct and
transitive non-standard-library dependency, visited depth-first in
declared-import order — a preorder depth-first walk over the
units' declared imports lists, each dependency visited once. -/
def specDepsDFS (fpOf : Pkg → Option String) (env : Env) :
    Nat → List String → List String → Option (List String × List String)
  | _, [], visited => some (visited, [])
  | 0, _ :: _, _ => none
  | Nat.succ n, k :: ks, visited =>
    if visited.contains k then specDepsDFS fpOf env n ks visited
    else
      match lookupKey k env with
      | none => none
      | some dp =>
        if dp.Standard then specDepsDFS fpOf env n ks (k :: visited)
        else
          match fpOf dp with
          | none => none
          | some c =>
            match specDepsDFS fpOf env n dp.imports (k :: visited) with
            | none => none
            | some (visited', sub) =>
              match specDepsDFS fpOf env n ks visited' with
              | none => none
              | some (visited'', rest) => some (visited'', (c :: sub) ++ rest)

/-- Modelled from the spec (the claim's stated digest order): first the
toolchain identity and the unit's canonical identity string, second the
declared build-flag lists in provider category order, third the byte
content of every owned source file, and LAST the dependency
fingerprints visited depth-first in declared-import order.  This is the
comparison definition for the order stated by the spec; the code's
order is `fingerprintRun`. -/
def specFingerprint (env : Env) (fs : FS) (tc : Toolchain) :
    Nat → Pkg → Option String
  | 0, _ => none
  | Nat.succ n, p =>
    match specFileContents fs p.Dir (specSrcFileList p) with
    | none => none
    | some contents =>
      match specDepsDFS (fun q => specFingerprint env fs tc n q) env
          (Nat.succ n) p.imports [] with
      | none => none
      | some (_, depChunks) =>
        some (digest (flagList tc p ++ contents ++ depChunks))

/-! ### Concrete fixtures used by witnesses and counterexamples -/

/-- A package record with every field empty; concrete packages below
override the fields they use. -/
def basePkg : Pkg :=
  { Dir := "", ImportPath := "", baseImportPath := "", Target := "",
    Root := "", Standard := false, Stale := false, Error := false,
    race := false, Compiler := "gc",
    GoFiles := [], CgoFiles := [], CFiles := [], CXXFiles := [],
    MFiles := [], HFiles := [], SFiles := [], SwigFiles := [],
    SwigCXXFiles := [], SysoFiles := [], TestGoFiles := [],
    XTestGoFiles := [],
    CgoCFLAGS := [], CgoCPPFLAGS := [], CgoCXXFLAGS := [],
    CgoLDFLAGS := [], CgoPkgConfig := [],
    imports := [], deps := [] }

/-- A fixed toolchain identity for concrete computations. -/
def tc0 : Toolchain := ⟨"go1", "linux", "amd64"⟩

/-- Leaf dependency `q`: one Go file, not standard library. -/
def c1q : Pkg :=
  { basePkg with ImportPath := "q", Dir := "/q", GoFiles := ["q.go"] }

/-- Root unit `p`: one Go file, one declared import `q`. -/
def c1p : Pkg :=
  { basePkg with
    ImportPath := "p"
    Dir := "/p"
    GoFiles := ["p.go"]
    imports := ["q"]
    deps := ["q"] }

/-- Environment holding `p` and `q`. -/
def c1env : Env := [("q", c1q), ("p", c1p)]

/-- File system for the `p`/`q` graph. -/
def c1fs : FS := fun path =>
  if path = "/p/p.go" then some "P"
  else if path = "/q/q.go" then some "Q"
  else none

/-- Dependency with no owned source files, used beside `c1q`. -/
def c2a : Pkg := { basePkg with ImportPath := "a", Dir := "/a" }

/-- Environment with two independent leaf dependencies `q` and `a`. -/
def c2env : Env := [("q", c1q), ("a", c2a)]

/-- Root whose `deps` list is instantiated by the C2 statements. -/
def c2p : Pkg :=
  { basePkg with
    ImportPath := "p2"
    Dir := "/p"
    GoFiles := ["p.go"] }

/-- Unit owning one Go file named `a.go`. -/
def c5p1 : Pkg :=
  { basePkg with ImportPath := "r", Dir := "/r", GoFiles := ["a.go"] }

/-- The same unit after renaming the owned file to `b.go`. -/
def c5p2 : Pkg :=
  { basePkg with ImportPath := "r", Dir := "/r", GoFiles := ["b.go"] }

/-- File system where `a.go` and `b.go` have identical byte content. -/
def c5fs : FS := fun path =>
  if path = "/r/a.go" then some "S"
  else if path = "/r/b.go" then some "S"
  else none

/-! ### Fingerprint engine lemmas -/

/-- Unfolding lemma for a non-memoized fingerprint computation whose
dependency scan and file reads all succeed: the digest input is the
dependency fingerprints, then the flag chunks, then the file chunks,
and the result is memoized under the unit's import path. -/
theorem fingerprintRun_step (env : Env) (fs : FS) (tc : Toolchain)
    (n : Nat) (p : Pkg) (memo m1 : Memo) (D F : List String)
    (hmemo : lookupKey p.ImportPath memo = none)
    (hdeps : fingerprintDeps (fun q m => fingerprintRun env fs tc n q m)
      env p.race p.deps memo = some (m1, some D))
    (hfiles : fileChunks fs p.Dir (srcFileList p) = some F) :
    fingerprintRun env fs tc (n + 1) p memo =
      some (digest (D ++ flagList tc p ++ F),
        (p.ImportPath, digest (D ++ flagList tc p ++ F)) :: m1) := by
  simp [fingerprintRun, hmemo, hdeps, hfiles]

/-- When every owned file is readable, the file section of the hash
input lists, per file, the file NAME followed by the file's byte
content. -/
theorem fileChunks_eq (fs : FS) (dir : String) (files : List String)
    (content : String → String)
    (h : ∀ f ∈ files, fs (dir ++ "/" ++ f) = some (content f)) :
    fileChunks fs dir files =
      some (files.foldr (fun f acc => f :: content f :: acc) []) := by
  induction files with
  | nil => rfl
  | cons f rest ih =>
    have hf : fs (dir ++ "/" ++ f) = some (content f) := h f (by simp)
    have hr := ih (fun g hg => h g (by simp [hg]))
    simp [fileChunks, hf, hr]

/-- C1 counterexample: on the concrete two-unit graph `p → q`, the hash
input the code builds differs from the hash input the claim describes
(toolchain identity and flags first, file contents, dependency
fingerprints last): the code feeds the dependency fingerprint first and
feeds file names along with contents.  Both computations succeed yet
yield different digests, so the claimed feeding order is not the
code's. -/
theorem fingerprint_order_spec_mismatch :
    (fingerprintRun c1env c1fs tc0 2 c1p []).map Prod.fst ≠ none ∧
    specFingerprint c1env c1fs tc0 3 c1p ≠ none ∧
    (fingerprintRun c1env c1fs tc0 2 c1p []).map Prod.fst ≠
      specFingerprint c1env c1fs tc0 3 c1p :=
  ⟨by decide, by decide, by decide⟩

/-- C1 (amended): for every unit, `Fingerprint` builds the digest by
feeding the hash, in this fixed order: first the fingerprints of every
included dependency (each direct and transitive dependency in the
unit's sorted `deps` list, standard-library units skipped unless the
unit is a race build); second the toolchain identity (version string,
target OS, target architecture), the unit's canonical identity string,
and every declared build-flag list in provider category order; and last,
for each owned source file in fixed category order, the file's name
followed by its byte content. -/
theorem fingerprint_digest_order (env : Env) (fs : FS) (tc : Toolchain)
    (n : Nat) (p : Pkg) (memo m1 : Memo) (D F : List String)
    (hmemo : lookupKey p.ImportPath memo = none)
    (hdeps : fingerprintDeps (fun q m => fingerprintRun env fs tc n q m)
      env p.race p.deps memo = some (m1, some D))
    (hfiles : fileChunks fs p.Dir (srcFileList p) = some F) :
    fingerprintRun env fs tc (n + 1) p memo =
      some (digest (D ++ flagList tc p ++ F),
        (p.ImportPath, digest (D ++ flagList tc p ++ F)) :: m1) :=
  fingerprintRun_step env fs tc n p memo m1 D F hmemo hdeps hfiles

/-- C1 witness: the amended order theorem instantiated on the concrete
`p → q` graph. -/
theorem fingerprint_digest_order_witness :
    lookupKey c1p.ImportPath ([] : Memo) = none ∧
    fingerprintRun c1env c1fs tc0 2 c1p [] =
      some (digest (["#go1linuxamd64qq.goQ"] ++ flagList tc0 c1p
          ++ ["p.go", "P"]),
        (c1p.ImportPath, digest (["#go1linuxamd64qq.goQ"]
          ++ flagList tc0 c1p ++ ["p.go", "P"]))
          :: [("q", "#go1linuxamd64qq.goQ")]) :=
  ⟨by decide,
   fingerprint_digest_order c1env c1fs tc0 1 c1p []
     [("q", "#go1linuxamd64qq.goQ")] ["#go1linuxamd64qq.goQ"]
     ["p.go", "P"] (by decide) (by decide) (by decide)⟩

/-- C2: two fingerprint computations over identical inputs yield the
identical digest regardless of incidental traversal order: the `deps`
map is iterated in an arbitrary order (pkg.go 947-951) but is sorted
by its ImportPath key before hashing, so any two iteration orders —
any two permutations of the dependency key multiset — produce the same
`deps` list and hence the same fingerprint. -/
theorem fingerprint_load_order_independent (env : Env) (fs : FS)
    (tc : Toolchain) (fuel : Nat) (p : Pkg) (memo : Memo)
    (l1 l2 : List String) (hperm : l1.Perm l2) :
    fingerprintRun env fs tc fuel { p with deps := sortDeps l1 } memo =
      fingerprintRun env fs tc fuel { p with deps := sortDeps l2 } memo := by
  have hs : sortDeps l1 = sortDeps l2 :=
    List.eq_of_perm_of_sorted
      ((List.perm_insertionSort _ l1).trans
        (hperm.trans (List.perm_insertionSort _ l2).symm))
      (List.sorted_insertionSort _ l1) (List.sorted_insertionSort _ l2)
  rw [hs]

/-- C2 witness: the two map-iteration orders of the dependency set
`{q, a}` give the same fingerprint. -/
theorem fingerprint_load_order_independent_witness :
    (["q", "a"] : List String).Perm ["a", "q"] ∧
    fingerprintRun c2env c1fs tc0 3 { c2p with deps := sortDeps ["q", "a"] }
        [] =
      fingerprintRun c2env c1fs tc0 3 { c2p with deps := sortDeps ["a", "q"] }
        [] :=
  ⟨by decide,
   fingerprint_load_order_independent c2env c1fs tc0 3 c2p [] ["q", "a"]
     ["a", "q"] (by decide)⟩

/-- C4: when the dependency scan of a not-yet-memoized unit meets a
dependency whose fingerprint is the indeterminate sentinel `""`
(`fingerprintDeps` returns `some (m1, none)`), `Fingerprint` returns the
sentinel for the unit itself as a normal result (`some`, never the
`none` that models `log.Fatal`), memoizes it, and any later call —
even with zero fuel, i.e. without any recomputation — returns the
memoized sentinel. -/
theorem fingerprint_indeterminate_propagation (env : Env) (fs : FS)
    (tc : Toolchain) (n : Nat) (p : Pkg) (memo m1 : Memo)
    (hmemo : lookupKey p.ImportPath memo = none)
    (hdeps : fingerprintDeps (fun q m => fingerprintRun env fs tc n q m)
      env p.race p.deps memo = some (m1, none)) :
    fingerprintRun env fs tc (n + 1) p memo =
      some ("", (p.ImportPath, "") :: m1) ∧
    ∀ fuel2, fingerprintRun env fs tc fuel2 p ((p.ImportPath, "") :: m1) =
      some ("", (p.ImportPath, "") :: m1) := by
  constructor
  · simp [fingerprintRun, hmemo, hdeps]
  · intro fuel2
    cases fuel2 <;> simp [fingerprintRun, lookupKey]

/-- C4 witness: `q` is memoized as indeterminate; fingerprinting `p`
returns the sentinel without aborting, memoizes it, and a zero-fuel
re-query returns it unchanged. -/
theorem fingerprint_indeterminate_propagation_witness :
    fingerprintDeps (fun q m => fingerprintRun c1env c1fs tc0 0 q m) c1env
        c1p.race c1p.deps [("q", "")] = some ([("q", "")], none) ∧
    fingerprintRun c1env c1fs tc0 1 c1p [("q", "")] =
      some ("", (c1p.ImportPath, "") :: [("q", "")]) ∧
    fingerprintRun c1env c1fs tc0 0 c1p ((c1p.ImportPath, "") :: [("q", "")]) =
      some ("", (c1p.ImportPath, "") :: [("q", "")]) :=
  ⟨by decide,
   (fingerprint_indeterminate_propagation c1env c1fs tc0 0 c1p [("q", "")]
     [("q", "")] (by decide) (by decide)).1,
   (fingerprint_indeterminate_propagation c1env c1fs tc0 0 c1p [("q", "")]
     [("q", "")] (by decide) (by decide)).2 0⟩

/-- C5 counterexample: renaming the single owned source file of unit
`r` from `a.go` to `b.go`, with the byte content identical under both
names and every other input unchanged, CHANGES the fingerprint — the
code writes the file name into the hash before the content. -/
theorem rename_changes_fingerprint :
    c5fs "/r/a.go" = c5fs "/r/b.go" ∧
    (fingerprintRun [] c5fs tc0 1 c5p1 []).map Prod.fst ≠ none ∧
    (fingerprintRun [] c5fs tc0 1 c5p1 []).map Prod.fst ≠
      (fingerprintRun [] c5fs tc0 1 c5p2 []).map Prod.fst :=
  ⟨by decide, by decide, by decide⟩

/-- C5 (amended): the fingerprint digest depends on both the names and
the byte contents of the owned source files (timestamps are never part
of the input): for each owned source file in fixed category order, the
hash input contains the file's name immediately followed by the file's
byte content, so a rename alters the hash input even when every byte of
content is unchanged. -/
theorem fingerprint_hashes_file_names (env : Env) (fs : FS) (tc : Toolchain)
    (n : Nat) (p : Pkg) (memo m1 : Memo) (D : List String)
    (content : String → String)
    (hmemo : lookupKey p.ImportPath memo = none)
    (hdeps : fingerprintDeps (fun q m => fingerprintRun env fs tc n q m)
      env p.race p.deps memo = some (m1, some D))
    (hread : ∀ f ∈ srcFileList p, fs (p.Dir ++ "/" ++ f) = some (content f)) :
    fingerprintRun env fs tc (n + 1) p memo =
      some (digest (D ++ flagList tc p
          ++ (srcFileList p).foldr (fun f acc => f :: content f :: acc) []),
        (p.ImportPath, digest (D ++ flagList tc p
          ++ (srcFileList p).foldr (fun f acc => f :: content f :: acc) []))
          :: m1) :=
  fingerprintRun_step env fs tc n p memo m1 D _ hmemo hdeps
    (fileChunks_eq fs p.Dir (srcFileList p) content hread)

/-! ### C3: standard-library exclusion -/

/-- Standard-library dependency `s` with one source file. -/
def c3s : Pkg :=
  { basePkg with
    ImportPath := "s"
    Dir := "/s"
    Standard := true
    GoFiles := ["s.go"] }

/-- Race-build unit depending on the standard-library unit `s`. -/
def c3p : Pkg :=
  { basePkg with
    ImportPath := "rp"
    Dir := "/p"
    GoFiles := ["p.go"]
    race := true
    deps := ["s"] }

/-- Environment holding the standard-library unit. -/
def c3env : Env := [("s", c3s)]

/-- File system where the standard-library source reads `"S1"`. -/
def c3fs1 : FS := fun path =>
  if path = "/p/p.go" then some "P"
  else if path = "/s/s.go" then some "S1"
  else none

/-- The same file system after editing only the standard-library
source, which now reads `"S2"`. -/
def c3fs2 : FS := fun path =>
  if path = "/p/p.go" then some "P"
  else if path = "/s/s.go" then some "S2"
  else none

/-- The standard-library unit `s` with its file list changed. -/
def c3s2 : Pkg := { c3s with GoFiles := ["t.go"] }

/-- Non-race unit depending on the standard-library unit `s`. -/
def c3u : Pkg :=
  { basePkg with
    ImportPath := "u"
    Dir := "/p"
    GoFiles := ["p.go"]
    deps := ["s"] }

/-- Environment before the standard-library change. -/
def c3env1 : Env := [("s", c3s), ("u", c3u)]

/-- Environment after the standard-library change. -/
def c3env2 : Env := [("s", c3s2), ("u", c3u)]

/-- Two environments agree up to standard-library entries: same keys in
the same order, and each pair of entries is either two standard-library
packages (whose other fields may differ arbitrarily) or the very same
package. -/
def StdAgree : Env → Env → Prop :=
  List.Forall₂ (fun e1 e2 => e1.1 = e2.1 ∧
    ((e1.2.Standard = true ∧ e2.2.Standard = true) ∨ e1.2 = e2.2))

/-- A successful lookup returns an entry of the list. -/
theorem lookupKey_mem {β : Type} (k : String) (l : List (String × β)) (v : β)
    (h : lookupKey k l = some v) : (k, v) ∈ l := by
  induction l with
  | nil => simp [lookupKey] at h
  | cons e rest ih =>
    obtain ⟨k1, v1⟩ := e
    by_cases hk : k = k1
    · subst hk
      simp [lookupKey] at h
      simp [h]
    · simp [lookupKey, hk] at h
      simp [ih h]

/-- Lookups in environments related by `StdAgree` either both fail or
both succeed with related packages. -/
theorem stdAgree_lookup (env1 env2 : Env) (h : StdAgree env1 env2)
    (k : String) :
    (lookupKey k env1 = none ∧ lookupKey k env2 = none) ∨
    ∃ q1 q2, lookupKey k env1 = some q1 ∧ lookupKey k env2 = some q2 ∧
      ((q1.Standard = true ∧ q2.Standard = true) ∨ q1 = q2) := by
  induction h with
  | nil => exact Or.inl ⟨rfl, rfl⟩
  | @cons a b l1 l2 he ht ih =>
    obtain ⟨ka, qa⟩ := a
    obtain ⟨kb, qb⟩ := b
    obtain ⟨hk, hq⟩ := he
    simp only at hk
    by_cases hka : k = ka
    · subst hka
      exact Or.inr ⟨qa, qb, by simp [lookupKey], by simp [lookupKey, hk], hq⟩
    · have hkb : ¬k = kb := by rw [← hk]; exact hka
      simpa [lookupKey, hka, hkb] using ih

/-- Reading the same directory through two file systems that agree on
it yields the same chunks. -/
theorem fileChunks_congr (fs1 fs2 : FS) (dir : String)
    (h : ∀ f, fs1 (dir ++ "/" ++ f) = fs2 (dir ++ "/" ++ f)) :
    ∀ files, fileChunks fs1 dir files = fileChunks fs2 dir files := by
  intro files
  induction files with
  | nil => rfl
  | cons f rest ih => simp [fileChunks, h f, ih]

/-- C3 counterexample: for a race-build unit the fingerprint DOES
incorporate the standard-library dependency's fingerprint — editing
only the standard-library source file `/s/s.go` (the unit's own source
is unchanged between `c3fs1` and `c3fs2`) changes the dependent's
fingerprint. -/
theorem stdlib_change_race_counterexample :
    c3p.race = true ∧ c3s.Standard = true ∧
    c3fs1 "/p/p.go" = c3fs2 "/p/p.go" ∧
    (fingerprintRun c3env c3fs1 tc0 2 c3p []).map Prod.fst ≠ none ∧
    (fingerprintRun c3env c3fs1 tc0 2 c3p []).map Prod.fst ≠
      (fingerprintRun c3env c3fs2 tc0 2 c3p []).map Prod.fst :=
  ⟨rfl, rfl, by decide, by decide, by decide⟩

/-- C3 (amended): for every unit NOT built in race mode (in a graph
whose non-standard units are all non-race, as one build context gives
every unit the same race flag), `Fingerprint` never incorporates any
standard-library dependency's fingerprint; consequently changing
standard-library units — their package records in the environment and
their files on disk — changes no such dependent's fingerprint. -/
theorem fingerprint_ignores_stdlib_nonrace (env1 env2 : Env) (fs1 fs2 : FS)
    (tc : Toolchain) (hrel : StdAgree env1 env2)
    (hrace : ∀ e ∈ env1, e.2.Standard = false → e.2.race = false)
    (hfs : ∀ e ∈ env1, e.2.Standard = false →
      ∀ f, fs1 (e.2.Dir ++ "/" ++ f) = fs2 (e.2.Dir ++ "/" ++ f)) :
    ∀ fuel p memo, p.race = false →
      (∀ f, fs1 (p.Dir ++ "/" ++ f) = fs2 (p.Dir ++ "/" ++ f)) →
      fingerprintRun env1 fs1 tc fuel p memo =
        fingerprintRun env2 fs2 tc fuel p memo := by
  intro fuel
  induction fuel with
  | zero => intro p memo _ _; rfl
  | succ n ih =>
    intro p memo hprace hpfs
    have hdeps : ∀ ds memo',
        fingerprintDeps (fun q m => fingerprintRun env1 fs1 tc n q m) env1
          false ds memo' =
        fingerprintDeps (fun q m => fingerprintRun env2 fs2 tc n q m) env2
          false ds memo' := by
      intro ds
      induction ds with
      | nil => intro memo'; rfl
      | cons d rest ihds =>
        intro memo'
        rcases stdAgree_lookup env1 env2 hrel d with ⟨h1, h2⟩ |
          ⟨q1, q2, h1, h2, hq⟩
        · simp [fingerprintDeps, h1, h2]
        · rcases hq with ⟨hs1, hs2⟩ | heq
          · simp [fingerprintDeps, h1, h2, hs1, hs2, ihds memo']
          · subst heq
            by_cases hstd : q1.Standard = true
            · simp [fingerprintDeps, h1, h2, hstd, ihds memo']
            · have hmem := lookupKey_mem d env1 q1 h1
              have hstd' : q1.Standard = false := by
                simpa using hstd
              have hqrace : q1.race = false := hrace _ hmem hstd'
              have hqfs := hfs _ hmem hstd'
              have hrec := ih q1 memo' hqrace hqfs
              simp only [fingerprintDeps, h1, h2, hstd', Bool.not_false,
                Bool.true_and, Bool.false_eq_true, if_false]
              rw [hrec]
              cases fingerprintRun env2 fs2 tc n q1 memo' with
              | none => rfl
              | some r =>
                obtain ⟨fpv, memo''⟩ := r
                by_cases hfe : fpv = ""
                · simp [hfe]
                · simp only [if_neg hfe]
                  rw [ihds memo'']
    simp only [fingerprintRun]
    cases hm : lookupKey p.ImportPath memo with
    | some fpv => rfl
    | none =>
      rw [hprace, hdeps p.deps memo,
        fileChunks_congr fs1 fs2 p.Dir hpfs (srcFileList p)]

/-- C3 witness: changing the standard-library unit `s`'s record leaves
the non-race dependent `u`'s fingerprint unchanged. -/
theorem fingerprint_ignores_stdlib_nonrace_witness :
    StdAgree c3env1 c3env2 ∧
    fingerprintRun c3env1 c3fs1 tc0 2 c3u [] =
      fingerprintRun c3env2 c3fs1 tc0 2 c3u [] :=
  ⟨List.Forall₂.cons ⟨rfl, Or.inl ⟨rfl, rfl⟩⟩
      (List.Forall₂.cons ⟨rfl, Or.inr rfl⟩ List.Forall₂.nil),
   fingerprint_ignores_stdlib_nonrace c3env1 c3env2 c3fs1 c3fs1 tc0
     (List.Forall₂.cons ⟨rfl, Or.inl ⟨rfl, rfl⟩⟩
       (List.Forall₂.cons ⟨rfl, Or.inr rfl⟩ List.Forall₂.nil))
     (by decide) (fun _ _ _ _ => rfl) 2 c3u [] rfl (fun _ => rfl)⟩

/-- C5 witness: the name-and-content characterization instantiated on
unit `r` with content function sending `a.go` to `"S"`. -/
theorem fingerprint_hashes_file_names_witness :
    fingerprintRun [] c5fs tc0 1 c5p1 [] =
      some (digest (([] : List String) ++ flagList tc0 c5p1
          ++ (srcFileList c5p1).foldr
            (fun f acc => f :: (if f = "a.go" then "S" else "") :: acc) []),
        (c5p1.ImportPath, digest (([] : List String) ++ flagList tc0 c5p1
          ++ (srcFileList c5p1).foldr
            (fun f acc => f :: (if f = "a.go" then "S" else "") :: acc) []))
          :: []) :=
  fingerprint_hashes_file_names [] c5fs tc0 0 c5p1 [] [] []
    (fun f => if f = "a.go" then "S" else "")
    (by decide) (by decide) (by decide)

/-! ### Staleness evaluator (pkg.go 1057-1171) -/

/-- pkg.go 1125-1128: the artifact's build time — the `ModTime` of the
target when `stat` succeeds, otherwise the zero instant (`built`
stays `time.Time{}`; `built.IsZero()` then reports the package
completely unbuilt). -/
def builtOf (mt : MTime) (target : String) : Nat :=
  match mt target with
  | some t => t
  | none => 0

/-- pkg.go 1134-1137: `olderThan` — the file is missing (`stat` error)
or its modification time is strictly after the artifact's. -/
def olderThan (mt : MTime) (built : Nat) (file : String) : Bool :=
  match mt file with
  | none => true
  | some t => decide (built < t)

/-- pkg.go 1161-1162: the owned sources `isStale` checks, in its own
category order (which differs from the fingerprint's). -/
def staleSrcList (p : Pkg) : List String :=
  p.GoFiles ++ p.CFiles ++ p.CXXFiles ++ p.MFiles ++ p.HFiles ++ p.SFiles
    ++ p.CgoFiles ++ p.SysoFiles ++ p.SwigFiles ++ p.SwigCXXFiles

/-- pkg.go 1059-1063: `computeStale` collects the `Root` directories of
the units named on the command line into the `topRoot` set. -/
def topRootOf (roots : List Pkg) : List String :=
  roots.map (fun p => p.Root)

/-- `isStale` (pkg.go 1099-1171).  `deps` is the unit's resolved
transitive dependency list (`p.deps`); each entry's `Stale` field holds
the staleness the post-order `computeStale` walk has already computed
for it.  Decision order: fake builtin package (fresh), load error
(stale), no compilable sources (fresh), missing target or
provider-stale (stale), unbuilt artifact (stale), stale or newer
dependency (stale), root tree disjoint from every requested root
(fresh), newer owned source (stale). -/
def isStale (mt : MTime) (topRoot : List String) (p : Pkg)
    (deps : List Pkg) : Bool :=
  if (p.Standard && (p.baseImportPath == "unsafe"
      || p.Compiler == "gccgo")) = true then false
  else if p.Error = true then true
  else if (p.GoFiles.isEmpty && p.CgoFiles.isEmpty && p.TestGoFiles.isEmpty
      && p.XTestGoFiles.isEmpty && !usesSwig p) = true then false
  else if (p.Target == "" || p.Stale) = true then true
  else if builtOf mt p.Target = 0 then true
  else if deps.any (fun d => d.Stale
      || (d.Target != "" && olderThan mt (builtOf mt p.Target) d.Target))
      = true then true
  else if (p.Root != "" && !topRoot.contains p.Root) = true then false
  else (staleSrcList p).any (fun src =>
    olderThan mt (builtOf mt p.Target) (p.Dir ++ "/" ++ src))

/-- Stale dependency used by the C7 statements. -/
def c7d : Pkg := { basePkg with ImportPath := "d", Stale := true }

/-- Dependent unit owning no compilable source (only a `.syso`
object), with an install target inside the requested root. -/
def c7u : Pkg :=
  { basePkg with
    ImportPath := "u7"
    Dir := "/w/u"
    Root := "/w"
    Target := "/w/u.a"
    SysoFiles := ["o.syso"] }

/-- Timestamps for the C7 counterexample. -/
def c7mt : MTime := fun _ => some 1

/-- C7 counterexample: `c7d` is a dependency of `c7u` and is marked
stale, yet the evaluator reports `c7u` fresh, because `c7u` owns no
compilable sources and that check precedes the dependency check. -/
theorem stale_dep_not_propagated :
    c7d.Stale = true ∧ c7d ∈ [c7d] ∧
    isStale c7mt ["/w"] c7u [c7d] = false :=
  ⟨rfl, by simp, by decide⟩

/-- C7 (amended): staleness propagates from any dependency, direct or
transitive (`deps` is the transitive closure list), to every dependent
the evaluator regards as rebuildable: one owning compilable sources
(Go, cgo, test or SWIG inputs) that is not the fake builtin
`unsafe`/gccgo package.  A dependent owning no compilable sources is
reported fresh regardless of its dependencies. -/
theorem stale_propagates (mt : MTime) (topRoot : List String) (p : Pkg)
    (deps : List Pkg) (d : Pkg) (hd : d ∈ deps) (hstale : d.Stale = true)
    (hsrc : ¬(p.GoFiles.isEmpty && p.CgoFiles.isEmpty
      && p.TestGoFiles.isEmpty && p.XTestGoFiles.isEmpty
      && !usesSwig p) = true)
    (hfake : ¬(p.Standard && (p.baseImportPath == "unsafe"
      || p.Compiler == "gccgo")) = true) :
    isStale mt topRoot p deps = true := by
  have hany : deps.any (fun d => d.Stale
      || (d.Target != "" && olderThan mt (builtOf mt p.Target) d.Target))
      = true :=
    List.any_eq_true.mpr ⟨d, hd, by simp [hstale]⟩
  unfold isStale
  rw [if_neg hfake]
  by_cases he : p.Error = true
  · rw [if_pos he]
  · rw [if_neg he, if_neg hsrc]
    by_cases ht : (p.Target == "" || p.Stale) = true
    · rw [if_pos ht]
    · rw [if_neg ht]
      by_cases hb : builtOf mt p.Target = 0
      · rw [if_pos hb]
      · rw [if_neg hb, if_pos hany]

/-- C7 witness: a unit with one Go file and a stale dependency is
reported stale. -/
theorem stale_propagates_witness :
    c7d ∈ [c7d] ∧ c7d.Stale = true ∧
    isStale c7mt ["/w"] { c7u with GoFiles := ["a.go"] } [c7d] = true :=
  ⟨by simp, rfl,
   stale_propagates c7mt ["/w"] { c7u with GoFiles := ["a.go"] } [c7d] c7d
     (by simp) rfl (by decide) (by decide)⟩

/-- Unit installed outside every requested root (its `Root` is `/g`,
the request's root tree is `/w`). -/
def c8p : Pkg :=
  { basePkg with
    ImportPath := "g"
    Dir := "/g/src/g"
    Root := "/g"
    Target := "/g/g.a"
    GoFiles := ["a.go"] }

/-- Non-stale dependency of `c8p` whose artifact is newer than
`c8p`'s artifact. -/
def c8d : Pkg := { basePkg with ImportPath := "gd", Target := "/g/gd.a" }

/-- Timestamps for the C8 counterexample: `c8p`'s artifact at 5, the
dependency's artifact at 9, everything else missing. -/
def c8mt : MTime := fun path =>
  if path = "/g/g.a" then some 5
  else if path = "/g/gd.a" then some 9
  else none

/-- C8 counterexample: `c8p`'s root `/g` is disjoint from the only
requested root `/w`, yet the evaluator reports it STALE, because the
dependency-artifact-newer timestamp check precedes the
root-disjointness exception. -/
theorem outside_root_not_always_fresh :
    (["/w"] : List String).contains c8p.Root = false ∧
    c8d.Stale = false ∧
    isStale c8mt ["/w"] c8p [c8d] = true :=
  ⟨by decide, rfl, by decide⟩

/-- C8 (amended): the root-disjointness exception suppresses only the
owned-source timestamp checks.  A unit whose `Root` is non-empty and
not among the requested roots is reported fresh — for arbitrary
modification times of its owned source files — provided it survives
the earlier checks: no load error, an install target whose artifact
exists (nonzero mtime), provider-stale flag unset, and no dependency
that is stale, or that has an install target whose artifact is missing
or newer than the unit's artifact.  The dependency proviso is exactly
the code's guard: a target-less dependency (such as the fake builtin
`unsafe` package) is exempt from the artifact comparison. -/
theorem outside_root_fresh (mt : MTime) (topRoot : List String) (p : Pkg)
    (deps : List Pkg)
    (herr : p.Error = false)
    (htarget : (p.Target == "") = false)
    (hflag : p.Stale = false)
    (hbuilt : builtOf mt p.Target ≠ 0)
    (hdeps : ∀ d ∈ deps, d.Stale = false ∧
      ((d.Target != "") = true →
        olderThan mt (builtOf mt p.Target) d.Target = false))
    (hroot : (p.Root != "" && !topRoot.contains p.Root) = true) :
    isStale mt topRoot p deps = false := by
  have hany : deps.any (fun d => d.Stale
      || (d.Target != "" && olderThan mt (builtOf mt p.Target) d.Target))
      = false := by
    rw [List.any_eq_false]
    intro d hdm
    obtain ⟨h1, h2⟩ := hdeps d hdm
    cases htd : (d.Target != "") with
    | false => simp [h1, htd]
    | true => simp [h1, htd, h2 htd]
  unfold isStale
  by_cases hfake : (p.Standard && (p.baseImportPath == "unsafe"
      || p.Compiler == "gccgo")) = true
  · rw [if_pos hfake]
  · rw [if_neg hfake, if_neg (by simp [herr] : ¬p.Error = true)]
    by_cases hsrc : (p.GoFiles.isEmpty && p.CgoFiles.isEmpty
        && p.TestGoFiles.isEmpty && p.XTestGoFiles.isEmpty
        && !usesSwig p) = true
    · rw [if_pos hsrc]
    · rw [if_neg hsrc,
        if_neg (by simp [htarget, hflag] : ¬(p.Target == "" || p.Stale) = true),
        if_neg hbuilt, if_neg (by simp [hany] :
          ¬deps.any (fun d => d.Stale || (d.Target != ""
            && olderThan mt (builtOf mt p.Target) d.Target)) = true),
        if_pos hroot]

/-- Target-less, non-stale dependency of `c8p`, standing for the fake
builtin `unsafe` package that sits in nearly every transitive
dependency list: it has no install target, so the code's dependency
guard never compares artifact times for it. -/
def c8dNoTarget : Pkg := { basePkg with ImportPath := "gu" }

/-- C8 witness: `c8p` with a target-less dependency — `c8dNoTarget` has
no install target (so `olderThan` is never consulted for it, matching
the code's guard), and `c8p`'s own source `a.go` has NO stat entry at
all (`olderThan` would say stale) — yet the disjoint-root exception
reports the unit fresh. -/
theorem outside_root_fresh_witness :
    (["/w"] : List String).contains c8p.Root = false ∧
    c8dNoTarget.Target = "" ∧
    olderThan c8mt (builtOf c8mt c8p.Target) (c8p.Dir ++ "/" ++ "a.go")
      = true ∧
    isStale c8mt ["/w"] c8p [c8dNoTarget] = false :=
  ⟨by decide, rfl, by decide,
   outside_root_fresh c8mt ["/w"] c8p [c8dNoTarget] rfl (by decide) rfl
     (by decide) (by decide) (by decide)⟩

/-! ### Cache store (main.go 433-463, 465-537) -/

/-- Result of the `os.Link` call in `linkOrCopy`. -/
inductive LinkErr where
  | ok
  | eexist
  | other
deriving DecidableEq

/-- Outcomes of the system calls on `linkOrCopy`'s copy fallback path:
open source, stat source, create destination, chmod destination, copy
bytes. -/
structure CopyOutcome where
  openOk : Bool
  statOk : Bool
  createOk : Bool
  chmodOk : Bool
  copyOk : Bool
deriving DecidableEq

/-- `linkOrCopy` (main.go 433-463); `true` = returns `nil`.  The
destination-existence observation and the `os.Link` outcome are
independent parameters because a concurrent writer may complete the
same insert between the two system calls (`dstExists = false` yet
`link = LinkErr.eexist`). -/
def linkOrCopy (dstExists : Bool) (link : LinkErr) (c : CopyOutcome) :
    Bool :=
  if dstExists then true
  else
    match link with
    | LinkErr.ok => true
    | LinkErr.eexist => true
    | LinkErr.other =>
      if !c.openOk then false
      else if !c.statOk then false
      else if !c.createOk then false
      else if !c.chmodOk then false
      else c.copyOk

/-- The store insert step of `save` (main.go 489-494): `exists(dst)`
first (`dstExists1`), then `linkOrCopy` with its own, later existence
observation (`dstExists2`).  `some false` = already present,
`some true` = inserted, `none` = `log.Fatal`. -/
def savePut (dstExists1 dstExists2 : Bool) (link : LinkErr)
    (c : CopyOutcome) : Option Bool :=
  if dstExists1 then some false
  else if linkOrCopy dstExists2 link c then some true
  else none

/-- C9: a store insert reports success rather than failure whenever the
destination already exists or the hard link fails with an
already-exists error — in particular when a concurrent writer completes
the same insert between the existence check and the write
(`dstExists1 = false`, `link = eexist`): `linkOrCopy` returns `nil`,
`save` never hits `log.Fatal`, and a destination seen by the first
check is success without any write. -/
theorem store_insert_exists_success (dstExists1 dstExists2 : Bool)
    (link : LinkErr) (c : CopyOutcome)
    (h : dstExists2 = true ∨ link = LinkErr.eexist) :
    linkOrCopy dstExists2 link c = true ∧
    savePut dstExists1 dstExists2 link c ≠ none ∧
    savePut true dstExists2 link c = some false := by
  have hl : linkOrCopy dstExists2 link c = true := by
    rcases h with h | h
    · simp [linkOrCopy, h]
    · subst h
      cases dstExists2 <;> simp [linkOrCopy]
  refine ⟨hl, ?_, by simp [savePut]⟩
  cases dstExists1 <;> simp [savePut, hl]

/-- C9 witness: the race interleaving — the existence checks both say
the entry is missing, the link then fails with an already-exists error
(a concurrent writer won), and the insert still succeeds, skipping the
copy fallback entirely (all its outcomes set to failure). -/
theorem store_insert_exists_success_witness :
    linkOrCopy false LinkErr.eexist ⟨false, false, false, false, false⟩
      = true ∧
    savePut false false LinkErr.eexist ⟨false, false, false, false, false⟩
      ≠ none ∧
    savePut true false LinkErr.eexist ⟨false, false, false, false, false⟩
      = some false :=
  store_insert_exists_success false false LinkErr.eexist
    ⟨false, false, false, false, false⟩ (Or.inr rfl)

/-- The observable actions of a `restore` invocation, in order. -/
inductive RAct where
  | msg (s : String)
  | loadUnits
  | fingerprinted (ip : String)
  | removeTarget (t : String)
  | mkdirTarget (t : String)
  | linkTarget (t : String)
  | chtimesTarget (t : String)
deriving DecidableEq

/-- `restore` (main.go 500-537) as an exit code plus action trace.  The
cache-directory existence check comes first: a missing directory prints
one message and exits 0 before any package is loaded.  Otherwise the
graph is loaded and, per non-skipped package, the fingerprint is
computed and — when the store has the entry — the target is removed,
its parent directories recreated, the entry linked-or-copied in and its
mtime bumped to now.  (Failures of those store steps are `log.Fatal`;
they are outside the missing-directory path this models.) -/
def restoreRun (dirExists : Bool) (dir : String) (pkgs : List Pkg)
    (fpOf : Pkg → String) (storeHas : String → Bool) : Nat × List RAct :=
  if !dirExists then (0, [RAct.msg (dir ++ " does not exist")])
  else
    (0, RAct.msg ("restoring from " ++ dir) :: RAct.loadUnits ::
      pkgs.foldr (fun p acc =>
        if p.Standard && !p.race then acc
        else if !storeHas (fpOf p) then
          RAct.fingerprinted p.ImportPath :: RAct.msg "-" :: acc
        else
          RAct.fingerprinted p.ImportPath :: RAct.removeTarget p.Target ::
            RAct.mkdirTarget p.Target :: RAct.linkTarget p.Target ::
            RAct.chtimesTarget p.Target :: acc) [])

/-- C10: when the cache directory does not exist, `restore` exits with
status 0 after printing exactly one message, and its action trace
contains no unit load, no fingerprint computation, and no removal,
creation or modification of any target artifact. -/
theorem restore_missing_cache_dir (dir : String) (pkgs : List Pkg)
    (fpOf : Pkg → String) (storeHas : String → Bool) :
    restoreRun false dir pkgs fpOf storeHas =
      (0, [RAct.msg (dir ++ " does not exist")]) ∧
    (restoreRun false dir pkgs fpOf storeHas).2.all (fun a =>
      match a with
      | RAct.msg _ => true
      | _ => false) = true :=
  ⟨rfl, rfl⟩

/-! ### Dependency graph builder (pkg.go 678-813, 853-968, 1211-1274) -/

/-- `PackageError` (pkg.go 654-660): the import stack it was recorded
with, and whether the error is an import cycle. -/
structure PErr where
  ImportStack : List String
  isImportCycle : Bool
deriving DecidableEq

/-- The per-unit resolution state mutated by the loader: the `Error`
and `Incomplete` fields, and the `imports` field (`importsSet`) whose
unset state marks a package still inside its own `load` call — the
InProgress detection of pkg.go 793-797. -/
structure PState where
  error : Option PErr
  incomplete : Bool
  importsSet : Option (List String)
deriving DecidableEq

/-- The descriptor the Build Metadata Provider returns for one import
path: a metadata error flag and the declared-plus-implicit list of
direct imports.  The provider stands for `build.Context.Import` and
the implicit-imports computation, the external collaborator of §6. -/
structure Desc where
  err : Bool
  imports : List String

/-- The `packageCache` map (pkg.go 713): import path to resolution
state; newest entry first. -/
abbrev Cache : Type := List (String × PState)

/-- Componentwise comparison of equal-length import stacks
(pkg.go 701-707). -/
def stackLt : List String → List String → Bool
  | x :: xs, y :: ys => if x ≠ y then decide (x < y) else stackLt xs ys
  | _, _ => false

/-- `importStack.shorterThan` (pkg.go 693-708): strictly shorter, or
equal length and lexicographically smaller. -/
def shorterThan (s t : List String) : Bool :=
  if s.length ≠ t.length then decide (s.length < t.length)
  else stackLt s t

/-- `reusePackage` (pkg.go 790-813): a package whose `imports` is still
unset is in the midst of its own load — an import cycle: attach a cycle
error (keeping any already-recorded error) and mark it Incomplete;
afterwards, for a recorded non-cycle error, rewrite its stack to the
shorter discovered one. -/
def reusePackage (st : PState) (stk : List String) : PState :=
  let st1 :=
    if st.importsSet = none then
      { st with
        error := match st.error with
          | none => some ⟨stk, true⟩
          | some e => some e
        incomplete := true }
    else st
  match st1.error with
  | some e =>
    if !e.isImportCycle && shorterThan stk e.ImportStack then
      { st1 with error := some ⟨stk, e.isImportCycle⟩ }
    else st1
  | none => st1

/-- The import loop of `load` (pkg.go 917-944): resolve each import
through `li` (the recursive `loadImport`, one fuel step down) and
accumulate whether any resolved child is Incomplete.  The `deps` union
and the local-import misuse error are omitted: the cycle behavior under
verification does not read them. -/
def loadLoop (li : String → Cache → Option (String × Cache)) :
    List String → Cache → Option (Cache × Bool)
  | [], cache => some (cache, false)
  | imp :: rest, cache =>
    match li imp cache with
    | none => none
    | some (key, c1) =>
      let childInc :=
        match lookupKey key c1 with
        | some st => st.incomplete
        | none => false
      match loadLoop li rest c1 with
      | none => none
      | some (c2, inc) => some (c2, childInc || inc)

/-- `loadImport` (pkg.go 739-788) with the provider abstracted and fuel
bounding the recursion (`none` = fuel exhausted): push the path on
the stack; a cache hit goes through `reusePackage`; a miss registers
the package InProgress (`importsSet` unset), fetches its descriptor,
records a metadata error as the package's error plus `Incomplete`
(returning before `imports` is assigned, exactly as the Go code does),
or resolves every import and finally marks the package Resolved by
assigning `importsSet`, folding in the children's incompleteness. -/
def loadImport : Nat → (String → Desc) → String → List String → Cache →
    Option (String × Cache)
  | 0, _, _, _, _ => none
  | Nat.succ n, prov, path, stk, cache =>
    let stk' := stk ++ [path]
    match lookupKey path cache with
    | some st => some (path, (path, reusePackage st stk') :: cache)
    | none =>
      let cache1 := (path, (⟨none, false, none⟩ : PState)) :: cache
      let d := prov path
      if d.err then
        some (path, (path, ⟨some ⟨stk', false⟩, true, none⟩) :: cache1)
      else
        match loadLoop (fun imp c => loadImport n prov imp stk' c)
            d.imports cache1 with
        | none => none
        | some (c2, inc) =>
          match lookupKey path c2 with
          | none => none
          | some st =>
            some (path, (path,
              { st with
                importsSet := some d.imports
                incomplete := st.incomplete || inc }) :: c2)

/-- The root loop of `packagesForBuild` (pkg.go 1211-1225): load each
requested root with an empty import stack against the shared cache. -/
def resolveAll : Nat → (String → Desc) → List String → Cache →
    Option Cache
  | _, _, [], cache => some cache
  | fuel, prov, a :: rest, cache =>
    match loadImport fuel prov a [] cache with
    | none => none
    | some (_, c1) => resolveAll fuel prov rest c1

/-- Provider for the synthetic graph: `A` imports `B`, `B` imports
`A`, `C` imports nothing; any other path is a metadata error. -/
def provAB : String → Desc := fun path =>
  if path = "A" then ⟨false, ["B"]⟩
  else if path = "B" then ⟨false, ["A"]⟩
  else if path = "C" then ⟨false, []⟩
  else ⟨true, []⟩

/-- C6 counterexample: resolving the request `[A, C]` over the cyclic
graph `A → B → A` terminates, but only `A` — the unit re-entered while
still InProgress — records the import-cycle error; `B` ends Incomplete
with NO recorded error, refuting the claim that both units on the
cycle end marked Incomplete with a recorded import-cycle error. -/
theorem cycle_error_only_on_reentered_unit :
    (resolveAll 5 provAB ["A", "C"] []).isSome = true ∧
    ((resolveAll 5 provAB ["A", "C"] []).bind
        (fun c => lookupKey "B" c)) =
      some ⟨none, true, some ["A"]⟩ :=
  ⟨by decide, by decide⟩

/-- The keys of `K` not yet registered in the cache. -/
def uncached (K : List String) (cache : Cache) : List String :=
  K.filter (fun k => (lookupKey k cache).isNone)

/-- A key found in a cache is still found after prepending entries. -/
theorem lookupKey_append_isSome {β : Type} (k : String)
    (l c : List (String × β)) (h : (lookupKey k c).isSome = true) :
    (lookupKey k (l ++ c)).isSome = true := by
  induction l with
  | nil => simpa using h
  | cons e rest ih =>
    obtain ⟨k1, v1⟩ := e
    by_cases hk : k = k1 <;> simp [lookupKey, hk, ih]

/-- Filtering with a stronger predicate keeps at most as many
elements. -/
theorem length_filter_mono {α : Type} (P Q : α → Bool)
    (h : ∀ a, P a = true → Q a = true) :
    ∀ l : List α, (l.filter P).length ≤ (l.filter Q).length := by
  intro l
  induction l with
  | nil => simp
  | cons a rest ih =>
    by_cases hp : P a = true
    · simp only [List.filter_cons, hp, h a hp, if_true]
      exact Nat.succ_le_succ ih
    · simp only [List.filter_cons, hp, if_false]
      cases hq : Q a
      · simpa [hq] using ih
      · simp only [hq, if_true]
        exact Nat.le_succ_of_le ih

/-- Prepending cache entries never grows the uncached set. -/
theorem uncached_append_le (K : List String) (l cache : Cache) :
    (uncached K (l ++ cache)).length ≤ (uncached K cache).length := by
  apply length_filter_mono
  intro k hk
  by_cases hs : (lookupKey k cache).isSome = true
  · have := lookupKey_append_isSome k l cache hs
    simp [Option.isNone_iff_eq_none] at hk
    simp [hk] at this
  · have hn : lookupKey k cache = none := by
      cases hck : lookupKey k cache with
      | none => rfl
      | some v => exact absurd (by simp [hck]) hs
    simp [hn]

/-- Registering a missing key of `K` strictly shrinks the uncached
set. -/
theorem uncached_insert_lt (K : List String) (cache : Cache)
    (path : String) (st : PState) (hin : path ∈ K)
    (hmiss : lookupKey path cache = none) :
    (uncached K ((path, st) :: cache)).length <
      (uncached K cache).length := by
  have heq : uncached K ((path, st) :: cache) =
      (uncached K cache).filter (fun k => !(k == path)) := by
    rw [uncached, uncached, List.filter_filter]
    congr 1
    funext k
    by_cases hk : k = path
    · subst hk; simp [lookupKey]
    · simp [lookupKey, hk]
  rw [heq]
  apply List.length_filter_lt_length_iff_exists.mpr
  refine ⟨path, ?_, by simp⟩
  simp [uncached, hmiss, hin]

/-- Every successful `loadLoop` only prepends cache entries, provided
the underlying resolver does. -/
theorem loadLoop_extends (li : String → Cache → Option (String × Cache))
    (hli : ∀ imp c key c', li imp c = some (key, c') → ∃ l, c' = l ++ c) :
    ∀ imps cache c2 inc, loadLoop li imps cache = some (c2, inc) →
      ∃ l, c2 = l ++ cache := by
  intro imps
  induction imps with
  | nil =>
    intro cache c2 inc h
    simp only [loadLoop, Option.some.injEq, Prod.mk.injEq] at h
    exact ⟨[], by rw [← h.1]; rfl⟩
  | cons imp rest ih =>
    intro cache c2 inc h
    cases hli1 : li imp cache with
    | none => simp [loadLoop, hli1] at h
    | some r =>
      obtain ⟨key, c1⟩ := r
      cases hl2 : loadLoop li rest c1 with
      | none => simp [loadLoop, hli1, hl2] at h
      | some r2 =>
        obtain ⟨c2', inc'⟩ := r2
        simp only [loadLoop, hli1, hl2, Option.some.injEq,
          Prod.mk.injEq] at h
        obtain ⟨h1, h2⟩ := h
        subst h1
        obtain ⟨l1, rfl⟩ := hli imp cache key c1 hli1
        obtain ⟨l2, rfl⟩ := ih (l1 ++ cache) c2' inc' hl2
        exact ⟨l2 ++ l1, (List.append_assoc l2 l1 cache).symm⟩

/-- Every successful `loadImport` only prepends cache entries. -/
theorem loadImport_extends : ∀ fuel prov path stk cache key c',
    loadImport fuel prov path stk cache = some (key, c') →
    ∃ l, c' = l ++ cache := by
  intro fuel
  induction fuel with
  | zero => intro _ _ _ _ _ _ h; simp [loadImport] at h
  | succ n ih =>
    intro prov path stk cache key c' h
    cases hc : lookupKey path cache with
    | some st =>
      simp only [loadImport, hc, Option.some.injEq, Prod.mk.injEq] at h
      exact ⟨[(path, reusePackage st (stk ++ [path]))], h.2.symm⟩
    | none =>
      rcases Bool.eq_false_or_eq_true ((prov path).err) with hd | hd
      · simp only [loadImport, hc, hd, if_true, Option.some.injEq,
          Prod.mk.injEq] at h
        exact ⟨[(path, ⟨some ⟨stk ++ [path], false⟩, true, none⟩),
          (path, ⟨none, false, none⟩)], h.2.symm⟩
      · cases hl : loadLoop (fun imp c =>
            loadImport n prov imp (stk ++ [path]) c) (prov path).imports
            ((path, (⟨none, false, none⟩ : PState)) :: cache) with
        | none => simp [loadImport, hc, hd, hl] at h
        | some r =>
          obtain ⟨c2, inc⟩ := r
          cases hk2 : lookupKey path c2 with
          | none => simp [loadImport, hc, hd, hl, hk2] at h
          | some st =>
            simp only [loadImport, hc, hd, hl, hk2, Bool.false_eq_true,
              if_false, Option.some.injEq, Prod.mk.injEq] at h
            obtain ⟨l2, rfl⟩ := loadLoop_extends _
              (fun imp c k c'' hh => ih prov imp (stk ++ [path]) c k c'' hh)
              _ _ _ _ hl
            refine ⟨(path, { st with
              importsSet := some (prov path).imports
              incomplete := st.incomplete || inc }) ::
                (l2 ++ [(path, (⟨none, false, none⟩ : PState))]), ?_⟩
            rw [← h.2]
            simp

/-- A `loadLoop` over keys of `K` succeeds when the resolver succeeds
below the fuel bound and only prepends entries. -/
theorem loadLoop_isSome (K : List String) (n : Nat)
    (li : String → Cache → Option (String × Cache))
    (hext : ∀ imp c key c', li imp c = some (key, c') → ∃ l, c' = l ++ c)
    (hterm : ∀ imp c, imp ∈ K → (uncached K c).length < n →
      (li imp c).isSome = true) :
    ∀ imps c, (∀ i ∈ imps, i ∈ K) → (uncached K c).length < n →
      (loadLoop li imps c).isSome = true := by
  intro imps
  induction imps with
  | nil => intro c _ _; simp [loadLoop]
  | cons imp rest ihl =>
    intro c hin hlt
    have h1 := hterm imp c (hin imp (by simp)) hlt
    obtain ⟨⟨key, c1⟩, hli⟩ := Option.isSome_iff_exists.mp h1
    obtain ⟨l, rfl⟩ := hext imp c key c1 hli
    have hlt2 : (uncached K (l ++ c)).length < n :=
      lt_of_le_of_lt (uncached_append_le K l c) hlt
    have h2 := ihl (l ++ c) (fun i hi => hin i (by simp [hi])) hlt2
    obtain ⟨⟨c2, inc⟩, hl2⟩ := Option.isSome_iff_exists.mp h2
    simp [loadLoop, hli, hl2]

/-- Resolution terminates on every finite graph, cyclic or not: when
every import named by the provider stays inside the finite key set `K`,
fuel exceeding the number of unregistered keys of `K` suffices — each
cache miss permanently registers its key before recursing. -/
theorem loadImport_terminates (prov : String → Desc) (K : List String)
    (hK : ∀ k ∈ K, ∀ i ∈ (prov k).imports, i ∈ K) :
    ∀ fuel path stk cache, path ∈ K →
      (uncached K cache).length < fuel →
      (loadImport fuel prov path stk cache).isSome = true := by
  intro fuel
  induction fuel with
  | zero => intro path stk cache _ hlt; exact absurd hlt (by omega)
  | succ n ih =>
    intro path stk cache hp hlt
    cases hc : lookupKey path cache with
    | some st => simp [loadImport, hc]
    | none =>
      rcases Bool.eq_false_or_eq_true ((prov path).err) with hd | hd
      · simp [loadImport, hc, hd]
      · have hshrink := uncached_insert_lt K cache path
          (⟨none, false, none⟩ : PState) hp hc
        have hlt1 : (uncached K
            ((path, (⟨none, false, none⟩ : PState)) :: cache)).length
              < n := by
          omega
        have hloop := loadLoop_isSome K n
          (fun imp c => loadImport n prov imp (stk ++ [path]) c)
          (fun imp c k c'' hh =>
            loadImport_extends n prov imp (stk ++ [path]) c k c'' hh)
          (fun imp c himp hlt' => ih imp (stk ++ [path]) c himp hlt')
          (prov path).imports
          ((path, (⟨none, false, none⟩ : PState)) :: cache)
          (hK path hp) hlt1
        obtain ⟨⟨c2, inc⟩, hl⟩ := Option.isSome_iff_exists.mp hloop
        have hmem : (lookupKey path c2).isSome = true := by
          obtain ⟨l, rfl⟩ := loadLoop_extends _
            (fun imp c k c'' hh =>
              loadImport_extends n prov imp (stk ++ [path]) c k c'' hh)
            _ _ _ _ hl
          exact lookupKey_append_isSome path l _ (by simp [lookupKey])
        obtain ⟨st, hst⟩ := Option.isSome_iff_exists.mp hmem
        simp [loadImport, hc, hd, hl, hst]

/-- C6 (amended): resolution of any finite dependency graph — cyclic
graphs included — terminates: fuel exceeding the number of
unregistered keys suffices, since each cache miss registers its key
before recursing.  On the synthetic cyclic request `[A, C]` with
`A → B → A`: the unit `A`, re-entered while still InProgress, ends
Incomplete with a recorded import-cycle error carrying the stack
`[A, B, A]`; the other cycle member `B` ends Incomplete through
dependency-incompleteness propagation but records no error of its own;
and the unrelated unit `C` in the same request resolves normally,
complete and error-free. -/
theorem cycle_resolution (prov : String → Desc) (K : List String)
    (hK : ∀ k ∈ K, ∀ i ∈ (prov k).imports, i ∈ K)
    (fuel : Nat) (path : String) (stk : List String) (cache : Cache)
    (hp : path ∈ K) (hfuel : (uncached K cache).length < fuel) :
    (loadImport fuel prov path stk cache).isSome = true ∧
    ((resolveAll 5 provAB ["A", "C"] []).bind
        (fun c => lookupKey "A" c)) =
      some ⟨some ⟨["A", "B", "A"], true⟩, true, some ["B"]⟩ ∧
    ((resolveAll 5 provAB ["A", "C"] []).bind
        (fun c => lookupKey "B" c)) =
      some ⟨none, true, some ["A"]⟩ ∧
    ((resolveAll 5 provAB ["A", "C"] []).bind
        (fun c => lookupKey "C" c)) =
      some ⟨none, false, some []⟩ :=
  ⟨loadImport_terminates prov K hK fuel path stk cache hp hfuel,
   by decide, by decide, by decide⟩

/-- C6 witness: the termination bound applied to the concrete cyclic
graph — three keys, empty cache, fuel 4. -/
theorem cycle_resolution_witness :
    (loadImport 4 provAB "A" [] []).isSome = true ∧
    ((resolveAll 5 provAB ["A", "C"] []).bind
        (fun c => lookupKey "B" c)) =
      some ⟨none, true, some ["A"]⟩ :=
  ⟨(cycle_resolution provAB ["A", "B", "C"] (by decide) 4 "A" [] []
      (by decide) (by decide)).1,
   (cycle_resolution provAB ["A", "B", "C"] (by decide) 4 "A" [] []
      (by decide) (by decide)).2.2.1⟩

end BuildCache
